import Mathlib

/-!
Verification development for the `veribotst` repository (`src/main.py`):
a chat bot answering verification-status queries against a registry of
usernames, with owner-only add/remove commands.

The Python string operations used by the source are embedded over
`List Char` (`lower`, `strip`, `replace`, `split`, `upper`), the
PostgreSQL-backed store is embedded as a list of rows with explicit
success/failure (the source catches every store exception inside the
store helper and logs it), and each message handler is embedded as a
pure function from a store and an inbound message to the new store plus
a trace of effects (replies sent, store reads/writes attempted, log
lines). Character-case operations follow the source on the ASCII range
(Lean `Char.toLower`/`Char.toUpper`, matching Python on ASCII input).
-/

/-! ## Python string primitives -/

/-- The whitespace characters recognised by Python `str.strip` / `str.split`
(ASCII range: space, tab, newline, carriage return, vertical tab, form feed). -/
def isPySpace (c : Char) : Bool :=
  c == ' ' || c == '\t' || c == '\n' || c == '\x0d' || c == '\x0b' || c == '\x0c'

/-- Python `str.lower` (ASCII range). -/
def pyLower (s : List Char) : List Char := s.map Char.toLower

/-- Python `str.upper` (ASCII range). -/
def pyUpper (s : List Char) : List Char := s.map Char.toUpper

/-- Python `str.lstrip()`: drop leading whitespace. -/
def pyLStrip (s : List Char) : List Char := s.dropWhile isPySpace

/-- Python `str.rstrip()`: drop trailing whitespace. -/
def pyRStrip (s : List Char) : List Char := (s.reverse.dropWhile isPySpace).reverse

/-- Python `str.strip()`: drop leading and trailing whitespace. -/
def pyStrip (s : List Char) : List Char := pyRStrip (pyLStrip s)

/-- Python `str.replace(old, new)` where `old` is a single character:
every occurrence of `old` is replaced by the string `new`. -/
def pyReplace (old : Char) (new : List Char) : List Char → List Char
  | [] => []
  | c :: rest =>
      if c = old then new ++ pyReplace old new rest
      else c :: pyReplace old new rest

/-- Fuel-driven worker for Python `str.split` with a maximum number of
splits: skip a whitespace run; if nothing is left stop; if no splits
remain, the rest of the string (trailing whitespace included) is one
final field; otherwise take the next whitespace-free token and recurse.
The fuel only guarantees structural recursion; `s.length + 1` is enough
fuel because each step consumes at least one character. -/
def pySplitFuel : Nat → Nat → List Char → List (List Char)
  | 0, _, _ => []
  | fuel + 1, maxs, s =>
      match s.dropWhile isPySpace with
      | [] => []
      | c :: rest =>
          if maxs = 0 then [c :: rest]
          else
            ((c :: rest).takeWhile (fun d => !isPySpace d)) ::
              pySplitFuel fuel (maxs - 1)
                ((c :: rest).dropWhile (fun d => !isPySpace d))

/-- Python `str.split(maxsplit=n)` (whitespace separator). -/
def pySplitMax (n : Nat) (s : List Char) : List (List Char) :=
  pySplitFuel (s.length + 1) n s

/-- Python `str.split()` (whitespace separator, unlimited splits; a string
of length `L` can produce at most `L` splits, so `L` is enough). -/
def pySplit (s : List Char) : List (List Char) :=
  pySplitFuel (s.length + 1) s.length s

/-! ## Data model -/

/-- One persisted row of the `verified_users` table:
`username` (unique key, normalized form) and `service` (free text). -/
structure VerifiedUser where
  username : List Char
  service : List Char
deriving DecidableEq

/-- The store state: the rows of `verified_users`, in table order
(`fetchone` returns the first row the query matches). -/
abbrev Store := List VerifiedUser

/-- An inbound chat message, reduced to the fields the handlers read:
its text, the numeric id of the sender, and the username of the author
of the replied-to message when there is one (`none` when the message is
not a reply or the replied-to author has no username). -/
structure Msg where
  text : List Char
  from_user_id : Int
  reply_username : Option (List Char)

/-- Observable effects of one dispatch: a reply sent to the chat, an
attempted store read, an attempted store write, or a logged error line. -/
inductive Eff where
  | reply (text : List Char)
  | dbRead
  | dbWrite
  | log
deriving DecidableEq

/-! ## Embedding of `src/main.py` -/

/-- The `authorized_users` set: the process-wide set of principals
allowed to run mutating commands, holding exactly the configured owner id. -/
def authorized_users (ownerId : Int) : List Int := [ownerId]

/-- `is_authorized(user)`: membership of the sender id in `authorized_users`. -/
def is_authorized (ownerId : Int) (userId : Int) : Bool :=
  (authorized_users ownerId).contains userId

/-- `format_username(username)`:
`username.lower().strip().replace('@', '')` then prefix `"@"`.
Note the `replace` removes every `'@'`, not only a leading one. -/
def format_username (username : List Char) : List Char :=
  '@' :: pyReplace '@' [] (pyStrip (pyLower username))

/-- `INSERT ... ON CONFLICT (username) DO UPDATE SET service = EXCLUDED.service`:
replace the service of an existing row with this username, or append a
new row. -/
def upsert (db : Store) (u s : List Char) : Store :=
  if db.any (fun r => r.username == u) then
    db.map (fun r => if r.username == u then ⟨u, s⟩ else r)
  else db ++ [⟨u, s⟩]

/-- `get_verified_user(username)`: format the username, then select the
first row whose key equals the formatted name, its lowercase form, its
underscore-free form or its underscore-to-hyphen form. The whole body is
wrapped in `try/except`: a store failure is logged and surfaced as `None`.
`fail` says whether the underlying store operation fails. -/
def get_verified_user (fail : Bool) (db : Store) (username : List Char) :
    Option VerifiedUser × List Eff :=
  let formatted := format_username username
  if fail then (none, [Eff.dbRead, Eff.log])
  else
    (db.find? (fun r =>
        r.username == formatted || r.username == pyLower formatted ||
        r.username == pyReplace '_' [] formatted ||
        r.username == pyReplace '_' ['-'] formatted),
     [Eff.dbRead])

/-- `save_verified_user(username, service)`: format the username (again —
the `/add` handler already formatted it) and upsert. A store failure is
caught inside this helper and logged; the caller receives no signal. -/
def save_verified_user (fail : Bool) (db : Store) (username service : List Char) :
    Store × List Eff :=
  let formatted := format_username username
  if fail then (db, [Eff.dbWrite, Eff.log])
  else (upsert db formatted service, [Eff.dbWrite])

/-- `remove_verified_user(username)`: `DELETE FROM verified_users WHERE
username = %s` with the formatted username. A store failure is caught
inside this helper and logged; the caller receives no signal. -/
def remove_verified_user (fail : Bool) (db : Store) (username : List Char) :
    Store × List Eff :=
  let formatted := format_username username
  if fail then (db, [Eff.dbWrite, Eff.log])
  else (db.filter (fun r => !(r.username == formatted)), [Eff.dbWrite])

/-- `escape_markdown(text)`: prefix a backslash to every character of the
MarkdownV2 special set. -/
def special_chars : List Char := "_*[]()~`>#+-=|\x7b\x7d.!".data

/-- The per-character escaping join of `escape_markdown`. -/
def escape_markdown : List Char → List Char
  | [] => []
  | c :: rest =>
      (if special_chars.contains c then ['\\', c] else [c]) ++ escape_markdown rest

/-- The `/check` reply for a verified user: fixed MarkdownV2 template with
the escaped display name and escaped (upper-cased) service inserted. -/
def verifiedResponse (display_name service : List Char) : List Char :=
  "*🟢 ".data ++ escape_markdown display_name ++ " is verified for:*\n\n".data ++
    escape_markdown service ++
    "\n\n*💬 We still recommend using escrow:*\n[Scrizon](https://t\\.me/scrizon) \\| [Cupid](https://t\\.me/cupid)".data

/-- The `/check` reply for an unverified user. -/
def notVerifiedResponse (display_name : List Char) : List Char :=
  "*🔴 ".data ++ escape_markdown display_name ++
    " is not verified\\!*\n\n*⚠️ We highly recommend using escrow:*\n[Scrizon](https://t\\.me/scrizon) \\| [Cupid](https://t\\.me/cupid)".data

/-- The usage reply of `/check`. -/
def checkUsage : List Char :=
  "Usage:\n1. Reply to a message with /check\n2. Or use: /check username".data

/-- The body of `check_verification` once a username has been chosen:
look the user up, build the upper-cased display name, and reply with the
verified or the not-verified template. -/
def check_user_reply (fail : Bool) (db : Store) (username : List Char) :
    Store × List Eff :=
  let r := get_verified_user fail db username
  let display_name := pyUpper (format_username username)
  match r.1 with
  | some row => (db, r.2 ++ [Eff.reply (verifiedResponse display_name (pyUpper row.service))])
  | none => (db, r.2 ++ [Eff.reply (notVerifiedResponse display_name)])

/-- `check_verification(message)`: take the username from the first
argument when present, else from the replied-to author (a present but
empty username is falsy in Python and counts as absent), else reply with
the usage hint and stop. -/
def check_verification (fail : Bool) (db : Store) (m : Msg) :
    Store × List Eff :=
  let parts := pySplit m.text
  if parts.length > 1 then check_user_reply fail db (pyStrip (parts.getD 1 []))
  else
    match m.reply_username with
    | some u => if u.isEmpty then (db, [Eff.reply checkUsage]) else check_user_reply fail db u
    | none => (db, [Eff.reply checkUsage])

/-- `add_verified(message)`: authorization gate, then
`message.text.split(maxsplit=2)` must yield exactly three parts; the
identity is formatted, the service is the rest of the text verbatim, the
store write runs, and the confirmation reply is sent unconditionally. -/
def add_verified (ownerId : Int) (fail : Bool) (db : Store) (m : Msg) :
    Store × List Eff :=
  if !(is_authorized ownerId m.from_user_id) then
    (db, [Eff.reply "You are not authorized to use this command.".data])
  else
    let args := pySplitMax 2 m.text
    if args.length ≠ 3 then (db, [Eff.reply "Usage: /add username - Service".data])
    else
      let username := format_username (args.getD 1 [])
      let service := args.getD 2 []
      let w := save_verified_user fail db username service
      (w.1, w.2 ++ [Eff.reply (username ++ " has been added as verified for ".data ++
        service ++ ".".data)])

/-- `remove_verified(message)`: authorization gate, then
`message.text.split()` must yield exactly two parts; the raw second part
is looked up first, and only when the lookup finds a row does the delete
run; the replies quote the raw (unformatted) argument. -/
def remove_verified (ownerId : Int) (fail : Bool) (db : Store) (m : Msg) :
    Store × List Eff :=
  if !(is_authorized ownerId m.from_user_id) then
    (db, [Eff.reply "You are not authorized to use this command.".data])
  else
    if (pySplit m.text).length ≠ 2 then
      (db, [Eff.reply "Usage: /remove username".data])
    else
      let username := (pySplit m.text).getD 1 []
      let r := get_verified_user fail db username
      match r.1 with
      | some _ =>
          let w := remove_verified_user fail db username
          (w.1, r.2 ++ w.2 ++
            [Eff.reply (username ++ " has been removed from verified users.".data)])
      | none =>
          (db, r.2 ++ [Eff.reply (username ++ " is not a verified user.".data)])

/-- The dispatcher: telebot routes a message on its leading command token
(the bare form; the `command@botname` form is elided). Messages that match
no handler produce no reply and touch nothing. -/
def dispatch (ownerId : Int) (fail : Bool) (db : Store) (m : Msg) :
    Store × List Eff :=
  match pySplit m.text with
  | cmd :: _ =>
      if cmd = "/ping".data then (db, [Eff.reply "Pong! Bot is working!".data])
      else if cmd = "/check".data then check_verification fail db m
      else if cmd = "/add".data then add_verified ownerId fail db m
      else if cmd = "/remove".data then remove_verified ownerId fail db m
      else (db, [])
  | [] => (db, [])

/-! ## Auxiliary definitions used by the statements -/

/-- Does `hay` start with `needle`? -/
def startsWithChars : List Char → List Char → Bool
  | [], _ => true
  | _ :: _, [] => false
  | a :: as, b :: bs => a == b && startsWithChars as bs

/-- Case-sensitive substring test. -/
def isSubstring (needle : List Char) : List Char → Bool
  | [] => needle.isEmpty
  | c :: rest => startsWithChars needle (c :: rest) || isSubstring needle rest

/-- The reply texts contained in an effect trace, in order. -/
def replies (es : List Eff) : List (List Char) :=
  es.filterMap (fun e => match e with | Eff.reply t => some t | _ => none)

/-- The normalizer as the spec describes it word for word: lowercase, trim
surrounding whitespace, remove a single leading at sign if present, then
prefix a single at sign (so an at sign after the first character would be
preserved). Stated for comparison with `format_username`. -/
def normalizeSpecWords (raw : List Char) : List Char :=
  let s := pyStrip (pyLower raw)
  let s := match s with
    | '@' :: rest => rest
    | other => other
  '@' :: s

/-- The lookup as the spec describes it: the normalized identity plus the
three alternate punctuation forms (the normalized form again, the
underscore-free form, the underscore-to-hyphen form) as a logical OR,
first match or none. Stated for comparison with `get_verified_user`. -/
def lookupSpecWords (db : Store) (identity : List Char) : Option VerifiedUser :=
  let n := format_username identity
  db.find? (fun r =>
    r.username == n || r.username == pyReplace '_' [] n ||
    r.username == pyReplace '_' ['-'] n)

/-- The amended normalizer description: lowercase, trim surrounding
whitespace, remove every at sign wherever it occurs, then prefix a single
at sign. -/
def normalizeRemoveAllAt (raw : List Char) : List Char :=
  '@' :: (pyStrip (pyLower raw)).filter (fun c => !(c == '@'))

/-! ## Character-level helper lemmas -/

theorem char_eq_of_toNat_eq {a b : Char} (h : a.toNat = b.toNat) : a = b := by
  have := congrArg Char.ofNat h
  simpa using this

theorem char_eq_iff_toNat {a b : Char} : a = b ↔ a.toNat = b.toNat :=
  ⟨fun h => congrArg Char.toNat h, char_eq_of_toNat_eq⟩

theorem char_toNat_ofNat_of_lt {n : Nat} (h : n < 0xd800) : (Char.ofNat n).toNat = n := by
  have hv : n.isValidChar := Or.inl h
  rw [Char.ofNat, dif_pos hv]
  simp [Char.ofNatAux, Char.toNat, UInt32.toNat]

theorem toLower_toNat (c : Char) :
    (Char.toLower c).toNat =
      if 65 ≤ c.toNat ∧ c.toNat ≤ 90 then c.toNat + 32 else c.toNat := by
  rw [Char.toLower]
  split
  · next h => exact char_toNat_ofNat_of_lt (by omega)
  · rfl

theorem toLower_toLower (c : Char) :
    Char.toLower (Char.toLower c) = Char.toLower c := by
  apply char_eq_of_toNat_eq
  rw [toLower_toNat, toLower_toNat c]
  by_cases h : 65 ≤ c.toNat ∧ c.toNat ≤ 90
  · rw [if_pos h, if_neg (by omega)]
  · rw [if_neg h, if_neg h]

theorem isPySpace_eq_toNat (c : Char) :
    isPySpace c = true ↔
      (c.toNat = 32 ∨ c.toNat = 9 ∨ c.toNat = 10 ∨ c.toNat = 13 ∨
       c.toNat = 11 ∨ c.toNat = 12) := by
  simp only [isPySpace, Bool.or_eq_true, beq_iff_eq, char_eq_iff_toNat,
    show (' ' : Char).toNat = 32 from rfl, show ('\t' : Char).toNat = 9 from rfl,
    show ('\n' : Char).toNat = 10 from rfl, show ('\x0d' : Char).toNat = 13 from rfl,
    show ('\x0b' : Char).toNat = 11 from rfl, show ('\x0c' : Char).toNat = 12 from rfl]
  tauto

theorem isPySpace_toLower (c : Char) :
    isPySpace (Char.toLower c) = isPySpace c := by
  by_cases h : 65 ≤ c.toNat ∧ c.toNat ≤ 90
  · have h1 : (Char.toLower c).toNat = c.toNat + 32 := by rw [toLower_toNat, if_pos h]
    have h2 : isPySpace (Char.toLower c) = false := by
      rw [← Bool.not_eq_true, isPySpace_eq_toNat, h1]
      omega
    have h3 : isPySpace c = false := by
      rw [← Bool.not_eq_true, isPySpace_eq_toNat]
      omega
    rw [h2, h3]
  · have h1 : Char.toLower c = c := by
      apply char_eq_of_toNat_eq
      rw [toLower_toNat, if_neg h]
    rw [h1]

theorem toLower_eq_at_iff (c : Char) : (Char.toLower c = '@') ↔ (c = '@') := by
  rw [char_eq_iff_toNat, char_eq_iff_toNat, toLower_toNat,
    show ('@' : Char).toNat = 64 from rfl]
  by_cases h : 65 ≤ c.toNat ∧ c.toNat ≤ 90
  · rw [if_pos h]
    omega
  · rw [if_neg h]

/-! ## List-level helper lemmas -/

theorem pyReplace_nil_eq_filter (old : Char) :
    ∀ s : List Char, pyReplace old [] s = s.filter (fun c => !(c == old))
  | [] => rfl
  | c :: rest => by
    by_cases h : c = old
    · simp [pyReplace, h, List.filter_cons, pyReplace_nil_eq_filter old rest]
    · simp [pyReplace, h, List.filter_cons, pyReplace_nil_eq_filter old rest]

theorem pyReplace_at_idem (X : List Char) :
    pyReplace '@' [] (pyReplace '@' [] X) = pyReplace '@' [] X := by
  rw [pyReplace_nil_eq_filter, pyReplace_nil_eq_filter]
  exact List.filter_eq_self.mpr (fun a ha => (List.mem_filter.1 ha).2)

theorem mem_pyLStrip {c : Char} {s : List Char} (h : c ∈ pyLStrip s) : c ∈ s :=
  List.Sublist.mem h (List.dropWhile_sublist isPySpace)

theorem mem_pyRStrip {c : Char} {s : List Char} (h : c ∈ pyRStrip s) : c ∈ s := by
  rw [pyRStrip, List.mem_reverse] at h
  exact List.mem_reverse.mp (List.Sublist.mem h (List.dropWhile_sublist isPySpace))

theorem mem_pyStrip {c : Char} {s : List Char} (h : c ∈ pyStrip s) : c ∈ s :=
  mem_pyLStrip (mem_pyRStrip h)

theorem map_eq_self_of_fixed {f : Char → Char} :
    ∀ {s : List Char}, (∀ c ∈ s, f c = c) → s.map f = s
  | [], _ => rfl
  | c :: rest, h => by
    rw [List.map_cons, h c (List.mem_cons_self c rest),
      map_eq_self_of_fixed (fun d hd => h d (List.mem_cons_of_mem c hd))]

theorem toLower_fixed_of_mem_pyLower {c : Char} {s : List Char}
    (h : c ∈ pyLower s) : Char.toLower c = c := by
  obtain ⟨b, _, rfl⟩ := List.mem_map.1 h
  exact toLower_toLower b

theorem pyLower_format_username (u : List Char) :
    pyLower (format_username u) = format_username u := by
  rw [format_username, pyLower, List.map_cons]
  have h1 : Char.toLower '@' = '@' := by decide
  have h2 : (pyReplace '@' [] (pyStrip (pyLower u))).map Char.toLower
      = pyReplace '@' [] (pyStrip (pyLower u)) := by
    apply map_eq_self_of_fixed
    intro c hc
    rw [pyReplace_nil_eq_filter] at hc
    exact toLower_fixed_of_mem_pyLower (mem_pyStrip (List.mem_of_mem_filter hc))
  rw [h1, h2, pyLower]

theorem isPySpace_at : isPySpace '@' = false := by decide

theorem pyRStrip_cons_of_nonspace {c : Char} {s : List Char}
    (h : isPySpace c = false) : pyRStrip (c :: s) = c :: pyRStrip s := by
  rw [pyRStrip, List.reverse_cons, List.dropWhile_append]
  split
  · next he =>
    have h0 : pyRStrip s = [] := by
      rw [pyRStrip, List.isEmpty_iff.mp he, List.reverse_nil]
    rw [List.dropWhile_cons_of_neg (by rw [h]; exact Bool.false_ne_true), h0]
    rfl
  · next he =>
    rw [List.reverse_append, List.reverse_cons, List.reverse_nil, List.nil_append]
    rfl

theorem pyLStrip_cons_of_nonspace {c : Char} {s : List Char}
    (h : isPySpace c = false) : pyLStrip (c :: s) = c :: s :=
  List.dropWhile_cons_of_neg (by rw [h]; exact Bool.false_ne_true)

/-- C4 counterexample: on the input a@b the code normalizer and the
normalizer described by the spec (remove only a single leading at sign,
preserving later ones) disagree, so the claim as stated is false. -/
theorem format_username_keeps_inner_at_false :
    format_username "a@b".data ≠ normalizeSpecWords "a@b".data := by decide

/-- C4 amended: for every raw input, the code normalizer equals lowercasing,
trimming surrounding whitespace, removing every at sign wherever it occurs,
then prefixing a single at sign. -/
theorem format_username_removes_every_at (raw : List Char) :
    format_username raw = normalizeRemoveAllAt raw := by
  rw [format_username, normalizeRemoveAllAt, pyReplace_nil_eq_filter]

/-- C5 counterexample: normalization is not idempotent — on the input
consisting of the letter a, a space and an at sign, removing the at sign
exposes trailing whitespace that only the second application strips. -/
theorem format_username_not_idempotent :
    format_username (format_username "a @".data) ≠ format_username "a @".data := by
  decide

/-- C5 amended: normalization is idempotent for every input whose normalized
form carries no trailing whitespace (removal of an at sign can expose
trailing whitespace, which breaks idempotence in general), and the case,
whitespace and at-sign-prefix variants Foo, space-at-foo-space and foo all
normalize to at-foo. -/
theorem format_username_conditionally_idempotent :
    (∀ x : List Char, pyRStrip (format_username x) = format_username x →
        format_username (format_username x) = format_username x)
    ∧ format_username "Foo".data = "@foo".data
    ∧ format_username " @foo ".data = "@foo".data
    ∧ format_username "foo".data = "@foo".data := by
  refine ⟨?_, by decide, by decide, by decide⟩
  intro x h
  have hfu : format_username x = '@' :: pyReplace '@' [] (pyStrip (pyLower x)) := rfl
  have hT : pyRStrip (pyReplace '@' [] (pyStrip (pyLower x)))
      = pyReplace '@' [] (pyStrip (pyLower x)) := by
    rw [hfu, pyRStrip_cons_of_nonspace isPySpace_at] at h
    exact (List.cons_eq_cons.mp h).2
  calc format_username (format_username x)
      = '@' :: pyReplace '@' [] (pyStrip (pyLower (format_username x))) := rfl
    _ = '@' :: pyReplace '@' [] (pyStrip (format_username x)) := by
        rw [pyLower_format_username]
    _ = '@' :: pyReplace '@' []
          ('@' :: pyRStrip (pyReplace '@' [] (pyStrip (pyLower x)))) := by
        rw [hfu, pyStrip, pyLStrip_cons_of_nonspace isPySpace_at,
          pyRStrip_cons_of_nonspace isPySpace_at]
    _ = '@' :: pyReplace '@' [] ('@' :: pyReplace '@' [] (pyStrip (pyLower x))) := by
        rw [hT]
    _ = '@' :: pyReplace '@' [] (pyReplace '@' [] (pyStrip (pyLower x))) := by
        simp [pyReplace]
    _ = '@' :: pyReplace '@' [] (pyStrip (pyLower x)) := by rw [pyReplace_at_idem]
    _ = format_username x := hfu.symm

/-- C5 witness: the conditional idempotence applied at the input Foo. -/
theorem format_username_conditionally_idempotent_witness :
    format_username (format_username "Foo".data) = format_username "Foo".data :=
  format_username_conditionally_idempotent.1 "Foo".data (by decide)

theorem find?_congr_chars {α : Type} {p q : α → Bool} (h : ∀ a, p a = q a) :
    ∀ l : List α, l.find? p = l.find? q
  | [] => rfl
  | a :: l => by
    cases hq : q a <;>
      simp [List.find?, h a, hq, find?_congr_chars h l]

/-- C6: the lookup queries exactly the normalized form plus the three
alternate punctuation forms the spec lists (the normalized form again —
the code queries its lowercase form, which is the normalized form itself —
the underscore-free form and the underscore-to-hyphen form) as a logical OR,
returns the first matching row or none, and a missing identity yields none
rather than an error. -/
theorem get_verified_user_matches_spec_lookup (db : Store) (u : List Char) :
    (get_verified_user false db u).1 = lookupSpecWords db u
    ∧ ((∀ r ∈ db, r.username ≠ format_username u ∧
          r.username ≠ pyReplace '_' [] (format_username u) ∧
          r.username ≠ pyReplace '_' ['-'] (format_username u)) →
        (get_verified_user false db u).1 = none) := by
  have hmain : (get_verified_user false db u).1 = lookupSpecWords db u := by
    show db.find? _ = db.find? _
    apply find?_congr_chars
    intro a
    rw [pyLower_format_username u]
    cases hb : (a.username == format_username u) <;> simp [hb]
  refine ⟨hmain, fun hall => ?_⟩
  rw [hmain, lookupSpecWords, List.find?_eq_none]
  intro x hx
  obtain ⟨h1, h2, h3⟩ := hall x hx
  simp [h1, h2, h3]

/-- C6 witness: looking up bob in a store holding only @alice yields none. -/
theorem get_verified_user_matches_spec_lookup_witness :
    (get_verified_user false [⟨"@alice".data, "S".data⟩] "bob".data).1 = none :=
  (get_verified_user_matches_spec_lookup [⟨"@alice".data, "S".data⟩] "bob".data).2
    (by decide)

/-- C1: for every inbound /add or /remove command whose sender id is not the
configured owner id, the dispatcher sends the fixed not-authorized reply and
performs no store operation (no read, no write, no log), leaving the store
state unchanged. -/
theorem unauthorized_mutation_rejected :
    ∀ (ownerId : Int) (fail : Bool) (db : Store) (m : Msg),
      ((pySplit m.text).head? = some "/add".data ∨
        (pySplit m.text).head? = some "/remove".data) →
      m.from_user_id ≠ ownerId →
      dispatch ownerId fail db m =
        (db, [Eff.reply "You are not authorized to use this command.".data]) := by
  intro ownerId fail db m hcmd hne
  have hauth : is_authorized ownerId m.from_user_id = false := by
    have hb : (m.from_user_id == ownerId) = false := beq_eq_false_iff_ne.mpr hne
    simp [is_authorized, authorized_users, List.contains, List.elem, hb]
  rcases hcmd with h | h
  · cases hsp : pySplit m.text with
    | nil => rw [hsp] at h; simp at h
    | cons cmd rest =>
      rw [hsp] at h
      simp only [List.head?_cons, Option.some.injEq] at h
      subst h
      unfold dispatch
      rw [hsp]
      simp [add_verified, hauth]
  · cases hsp : pySplit m.text with
    | nil => rw [hsp] at h; simp at h
    | cons cmd rest =>
      rw [hsp] at h
      simp only [List.head?_cons, Option.some.injEq] at h
      subst h
      unfold dispatch
      rw [hsp]
      simp [remove_verified, hauth]

/-- C1 witness: a non-owner (id 2, owner id 1) issuing /add gets exactly the
not-authorized reply and the empty store stays empty. -/
theorem unauthorized_mutation_rejected_witness :
    dispatch 1 false [] ⟨"/add @bob S".data, 2, none⟩ =
      ([], [Eff.reply "You are not authorized to use this command.".data]) :=
  unauthorized_mutation_rejected 1 false [] ⟨"/add @bob S".data, 2, none⟩
    (Or.inl (by decide)) (by decide)

/-- C2 counterexample: when the store write fails during an owner /add, the
dispatcher still sends a reply — and it is the success confirmation — so the
claim that the dispatcher sends no reply on a store failure is false. -/
theorem store_failure_still_replies :
    dispatch 1 true [] ⟨"/add @bob EscrowService".data, 1, none⟩ =
      ([], [Eff.dbWrite, Eff.log,
        Eff.reply "@bob has been added as verified for EscrowService.".data])
    ∧ replies (dispatch 1 true [] ⟨"/add @bob EscrowService".data, 1, none⟩).2 ≠ [] := by
  constructor <;> decide

/-- C2 amended: a store failure is caught and logged at the store layer and
surfaced to the dispatcher as no signal at all; the dispatcher therefore
proceeds normally, and a failed write during /add leaves the store unchanged
yet still produces the success confirmation reply. -/
theorem add_failed_write_still_confirms :
    ∀ (ownerId : Int) (db : Store) (m : Msg),
      is_authorized ownerId m.from_user_id = true →
      (pySplitMax 2 m.text).length = 3 →
      add_verified ownerId true db m =
        (db, [Eff.dbWrite, Eff.log,
          Eff.reply (format_username ((pySplitMax 2 m.text).getD 1 []) ++
            " has been added as verified for ".data ++
            (pySplitMax 2 m.text).getD 2 [] ++ ".".data)]) := by
  intro ownerId db m hauth hlen
  simp [add_verified, hauth, hlen, save_verified_user]

/-- C2 witness: a concrete owner /add with a failing store write leaves the
store empty and still replies with the success confirmation. -/
theorem add_failed_write_still_confirms_witness :
    add_verified 7 true [] ⟨"/add @alice PayPal".data, 7, none⟩ =
      ([], [Eff.dbWrite, Eff.log,
        Eff.reply "@alice has been added as verified for PayPal.".data]) := by
  have h := add_failed_write_still_confirms 7 [] ⟨"/add @alice PayPal".data, 7, none⟩
    (by decide) (by decide)
  rw [h]
  decide

/-- C7: for every owner /remove with exactly one argument, a lookup runs
first; if it finds nothing the dispatcher replies that the identity is not a
verified user and performs no delete (store unchanged, no write effect); if
it finds a row the dispatcher performs the delete and replies confirming
removal. -/
theorem remove_performs_lookup_first :
    ∀ (ownerId : Int) (db : Store) (m : Msg),
      is_authorized ownerId m.from_user_id = true →
      (pySplit m.text).length = 2 →
      (((get_verified_user false db ((pySplit m.text).getD 1 [])).1 = none →
          remove_verified ownerId false db m =
            (db, [Eff.dbRead,
              Eff.reply ((pySplit m.text).getD 1 [] ++
                " is not a verified user.".data)]))
       ∧ (∀ row,
          (get_verified_user false db ((pySplit m.text).getD 1 [])).1 = some row →
          remove_verified ownerId false db m =
            ((remove_verified_user false db ((pySplit m.text).getD 1 [])).1,
             [Eff.dbRead, Eff.dbWrite,
              Eff.reply ((pySplit m.text).getD 1 [] ++
                " has been removed from verified users.".data)]))) := by
  intro ownerId db m hauth hlen
  have e1 : (get_verified_user false db ((pySplit m.text).getD 1 [])).2 =
      [Eff.dbRead] := rfl
  have e2 : (remove_verified_user false db ((pySplit m.text).getD 1 [])).2 =
      [Eff.dbWrite] := rfl
  constructor
  · intro hnone
    simp only [remove_verified, hauth, hlen, Bool.not_true, Bool.false_eq_true,
      if_false, ne_eq, not_true_eq_false, ite_false]
    rw [hnone, e1]
    rfl
  · intro row hsome
    simp only [remove_verified, hauth, hlen, Bool.not_true, Bool.false_eq_true,
      if_false, ne_eq, not_true_eq_false, ite_false]
    rw [hsome, e1, e2]
    rfl

/-- C7 witness: owner /remove of @bob against an empty store replies
not-a-verified-user after one read, with no write. -/
theorem remove_performs_lookup_first_witness :
    remove_verified 1 false [] ⟨"/remove @bob".data, 1, none⟩ =
      ([], [Eff.dbRead, Eff.reply "@bob is not a verified user.".data]) := by
  have h := (remove_performs_lookup_first 1 [] ⟨"/remove @bob".data, 1, none⟩
    (by decide) (by decide)).1 (by decide)
  rw [h]
  decide

/-- C8: a /check carrying no argument and no usable reply-context username
gets the usage reply and performs zero store operations, leaving the store
untouched. -/
theorem check_without_identity_is_pure_usage :
    ∀ (fail : Bool) (db : Store) (m : Msg),
      (pySplit m.text).length ≤ 1 →
      (m.reply_username = none ∨ m.reply_username = some []) →
      check_verification fail db m = (db, [Eff.reply checkUsage]) := by
  intro fail db m hlen hre
  unfold check_verification
  rw [if_neg (by omega)]
  rcases hre with h | h <;> rw [h]
  rfl

/-- C8 witness: a bare /check that is not a reply gets the usage reply with
no store effects. -/
theorem check_without_identity_is_pure_usage_witness :
    check_verification false [] ⟨"/check".data, 5, none⟩ =
      ([], [Eff.reply checkUsage]) :=
  check_without_identity_is_pure_usage false [] ⟨"/check".data, 5, none⟩
    (by decide) (Or.inl rfl)

theorem escape_markdown_prev_backslash :
    ∀ (s : List Char) (i : Nat) (c : Char),
      (escape_markdown s)[i]? = some c →
      special_chars.contains c = true →
      0 < i ∧ (escape_markdown s)[i - 1]? = some '\\' := by
  intro s
  induction s with
  | nil =>
    intro i c h _
    simp [escape_markdown] at h
  | cons c0 rest ih =>
    intro i c h hspec
    by_cases h0 : special_chars.contains c0 = true
    · have hm : c0 ∈ special_chars := by simpa using h0
      have he : escape_markdown (c0 :: rest) = '\\' :: c0 :: escape_markdown rest := by
        simp [escape_markdown, hm]
      rw [he] at h
      match i with
      | 0 =>
        rw [List.getElem?_cons_zero, Option.some.injEq] at h
        rw [← h] at hspec
        exact absurd hspec (by decide)
      | 1 =>
        refine ⟨Nat.one_pos, ?_⟩
        rw [he]
        rfl
      | (i + 2) =>
        rw [List.getElem?_cons_succ, List.getElem?_cons_succ] at h
        obtain ⟨hi, hprev⟩ := ih i c h hspec
        refine ⟨Nat.succ_pos _, ?_⟩
        rw [he]
        have hidx : i + 2 - 1 = (i - 1) + 1 + 1 := by omega
        rw [hidx, List.getElem?_cons_succ, List.getElem?_cons_succ]
        exact hprev
    · have hm : c0 ∉ special_chars := by simpa using h0
      have he : escape_markdown (c0 :: rest) = c0 :: escape_markdown rest := by
        simp [escape_markdown, hm]
      rw [he] at h
      match i with
      | 0 =>
        rw [List.getElem?_cons_zero, Option.some.injEq] at h
        rw [← h] at hspec
        exact absurd hspec h0
      | (i + 1) =>
        rw [List.getElem?_cons_succ] at h
        obtain ⟨hi, hprev⟩ := ih i c h hspec
        refine ⟨Nat.succ_pos _, ?_⟩
        rw [he]
        have hidx : i + 1 - 1 = (i - 1) + 1 := by omega
        rw [hidx, List.getElem?_cons_succ]
        exact hprev

/-- C9: every special character of the rich-text renderer that occurs in an
escaped field value is immediately preceded by a backslash in the output of
the escaping function, and the fixed reply template itself is not re-escaped:
its leading asterisk — a special character — stands unescaped at position
zero of every verified reply. -/
theorem escaped_fields_unescaped_template :
    (∀ (s : List Char) (i : Nat) (c : Char),
        (escape_markdown s)[i]? = some c →
        special_chars.contains c = true →
        0 < i ∧ (escape_markdown s)[i - 1]? = some '\\')
    ∧ (∀ dn sv : List Char, (verifiedResponse dn sv)[0]? = some '*')
    ∧ special_chars.contains '*' = true := by
  refine ⟨escape_markdown_prev_backslash, fun dn sv => rfl, by decide⟩

/-- C9 witness: the escaping property applied to the input a-underscore-b at
the position of the underscore. -/
theorem escaped_fields_unescaped_template_witness :
    0 < 2 ∧ (escape_markdown "a_b".data)[2 - 1]? = some '\\' :=
  escaped_fields_unescaped_template.1 "a_b".data 2 '_' (by decide) (by decide)

/-- C3 counterexample: after the owner adds @bob for EscrowService, the store
holds exactly that row, and /check bob produces exactly one reply — but that
reply does not contain the substring EscrowService (the service is
upper-cased in the reply), so the claim as stated is false. -/
theorem add_check_roundtrip_mixed_case_missing :
    (dispatch 9 false [] ⟨"/add @bob EscrowService".data, 9, none⟩).1 =
      [⟨"@bob".data, "EscrowService".data⟩]
    ∧ (replies (dispatch 9 false [⟨"@bob".data, "EscrowService".data⟩]
        ⟨"/check bob".data, 5, none⟩).2).length = 1
    ∧ (replies (dispatch 9 false [⟨"@bob".data, "EscrowService".data⟩]
        ⟨"/check bob".data, 5, none⟩).2).all
        (fun t => !(isSubstring "EscrowService".data t)) = true := by
  refine ⟨by decide, by decide, by decide⟩

/-- C3 amended: after the owner adds @bob for EscrowService the store holds
exactly that row, and /check bob produces exactly one reply containing the
substring ESCROWSERVICE (the service name upper-cased by the handler) and the
substring verified. -/
theorem add_check_roundtrip_uppercased :
    (dispatch 9 false [] ⟨"/add @bob EscrowService".data, 9, none⟩).1 =
      [⟨"@bob".data, "EscrowService".data⟩]
    ∧ (replies (dispatch 9 false [⟨"@bob".data, "EscrowService".data⟩]
        ⟨"/check bob".data, 5, none⟩).2).length = 1
    ∧ isSubstring "ESCROWSERVICE".data
        ((replies (dispatch 9 false [⟨"@bob".data, "EscrowService".data⟩]
          ⟨"/check bob".data, 5, none⟩).2).getD 0 []) = true
    ∧ isSubstring "verified".data
        ((replies (dispatch 9 false [⟨"@bob".data, "EscrowService".data⟩]
          ⟨"/check bob".data, 5, none⟩).2).getD 0 []) = true := by
  refine ⟨by decide, by decide, by decide, by decide⟩

/-- C10: a store holding @foobar and an owner command /remove @foo_bar: the
lookup succeeds through the underscore-free alternate form, the reply
confirms removal, yet the delete targets only the exact normalized key
@foo_bar, so the store still contains the matched row afterwards. -/
theorem remove_via_alternate_form_keeps_row :
    remove_verified 1 false [⟨"@foobar".data, "X".data⟩]
        ⟨"/remove @foo_bar".data, 1, none⟩ =
      ([⟨"@foobar".data, "X".data⟩],
       [Eff.dbRead, Eff.dbWrite,
        Eff.reply "@foo_bar has been removed from verified users.".data])
    ∧ (get_verified_user false [⟨"@foobar".data, "X".data⟩] "@foo_bar".data).1 =
        some ⟨"@foobar".data, "X".data⟩ := by
  refine ⟨by decide, by decide⟩
